import Mathlib

/-!
Shallow embedding of the Lune runtime glue code (`src/lib/lib.rs`) and of the
roblox datatype module (`packages/lib-roblox/src/lib.rs`), together with
theorems settling the specification claims about them.

The embedded interpreter (mlua / Luau) is modelled by its documented,
code-relevant behaviour: tables carry a `readonly` flag, `raw_set` bypasses
the flag while script-level assignment to a readonly table raises an error at
the call site, and in sandbox mode every loaded chunk executes in a fresh
script environment that is discarded afterwards.
-/

/-- A Luau value as far as the globals table of `Lune` is concerned: the
standard-library builtins installed by `Lua::new`, and the five capability
userdata values installed by `with_default_globals`. The `processGlobal`
constructor records the argument vector the userdata was constructed with
(`ProcessGlobal::new(self.args.clone())`). -/
inductive LuaValue where
  | builtin (name : String)
  | consoleGlobal
  | fsGlobal
  | netGlobal
  | processGlobal (args : List String)
  | taskGlobal
deriving DecidableEq, Repr

/-- Association-list update used to model a Luau table write: replace the
binding when the key is present, append it otherwise. -/
def rawSetEntries {α : Type} : List (String × α) → String → α → List (String × α)
  | [], k, v => [(k, v)]
  | (k0, v0) :: rest, k, v =>
    if k0 = k then (k, v) :: rest else (k0, v0) :: rawSetEntries rest k v

/-- Association-list lookup on table entries. -/
def lookupEntry {α : Type} : List (String × α) → String → Option α
  | [], _ => none
  | (k0, v0) :: rest, k => if k0 = k then some v0 else lookupEntry rest k

/-- A Luau table restricted to what the embedding needs for the globals of a
`Lune` instance: its entries and its readonly flag. -/
structure GlobalsTable where
  entries : List (String × LuaValue)
  readonly : Bool
deriving DecidableEq, Repr

/-- Embeds `Table::raw_set` of mlua: a raw write that bypasses the readonly flag
(this is how `with_default_globals` populates the sandboxed globals). -/
def GlobalsTable.raw_set (g : GlobalsTable) (k : String) (v : LuaValue) : GlobalsTable :=
  { g with entries := rawSetEntries g.entries k v }

/-- Embeds `Table::set_readonly` of mlua: sets the Luau readonly flag of the table. -/
def GlobalsTable.set_readonly (g : GlobalsTable) (b : Bool) : GlobalsTable :=
  { g with readonly := b }

/-- Lookup of a global by name. -/
def GlobalsTable.get (g : GlobalsTable) (k : String) : Option LuaValue :=
  lookupEntry g.entries k

/-- The error kinds the embedding distinguishes: a rejected write to the
frozen sandbox namespace, and an ordinary runtime failure raised by a script. -/
inductive LuaErrorKind where
  | sandboxViolation
  | runtime (message : String)
  | conversionError (message : String)
deriving DecidableEq, Repr

/-- A script-level assignment to a top-level name, as Luau executes it: on a
readonly table the attempt raises an error at the attempting call site and
leaves the table unchanged; on a writable table it stores the binding. -/
def scriptSet (g : GlobalsTable) (k : String) (v : LuaValue) :
    Except LuaErrorKind Unit × GlobalsTable :=
  if g.readonly then (Except.error LuaErrorKind.sandboxViolation, g)
  else (Except.ok (), { g with entries := rawSetEntries g.entries k v })

/-- A sequence of script-level assignment attempts, each applied to the table
the previous attempt left behind. -/
def scriptSetMany (g : GlobalsTable) : List (String × LuaValue) → GlobalsTable
  | [] => g
  | (k, v) :: rest => scriptSetMany (scriptSet g k v).2 rest

/-- The `Lune` struct of `src/lib/lib.rs`: an embedded interpreter instance
(represented by its globals table) plus the stored argument vector. -/
structure Lune where
  luaGlobals : GlobalsTable
  args : List String
deriving DecidableEq, Repr

/-- The standard-library globals `Lua::new` installs before any capability is
registered (a representative subset; the claims do not depend on the exact
stock of builtins). -/
def luauStdlibGlobals : List (String × LuaValue) :=
  [("print", LuaValue.builtin "print"),
   ("math", LuaValue.builtin "math"),
   ("string", LuaValue.builtin "string"),
   ("pcall", LuaValue.builtin "pcall")]

/-- Embeds `Lune::new`: creates the interpreter and enables Luau sandbox mode
(`lua.sandbox(true)`), which among other things marks the globals readonly;
the argument vector starts empty. -/
def Lune.new : Lune :=
  { luaGlobals := { entries := luauStdlibGlobals, readonly := true }, args := [] }

/-- Embeds `Lune::with_args`: stores the argument vector on the struct and changes
nothing else. -/
def Lune.with_args (l : Lune) (args : List String) : Lune :=
  { l with args := args }

/-- One step of `with_default_globals`: either a `raw_set` registering one
capability global, or the final `set_readonly(true)` freeze. -/
inductive InitStep where
  | registerStep (name : String) (v : LuaValue)
  | freezeStep
deriving DecidableEq, Repr

/-- Applies one initialization step to the globals table. -/
def applyInitStep (g : GlobalsTable) : InitStep → GlobalsTable
  | InitStep.registerStep k v => g.raw_set k v
  | InitStep.freezeStep => g.set_readonly true

/-- The statement sequence of `Lune::with_default_globals`, in source order:
five capability registrations followed by the freeze. -/
def defaultGlobalsSteps (args : List String) : List InitStep :=
  [InitStep.registerStep "console" LuaValue.consoleGlobal,
   InitStep.registerStep "fs" LuaValue.fsGlobal,
   InitStep.registerStep "net" LuaValue.netGlobal,
   InitStep.registerStep "process" (LuaValue.processGlobal args),
   InitStep.registerStep "task" LuaValue.taskGlobal,
   InitStep.freezeStep]

/-- Embeds `Lune::with_default_globals`: runs the initialization steps over the
current globals table (the `process` registration clones `self.args`). -/
def Lune.with_default_globals (l : Lune) : Lune :=
  { l with luaGlobals := (defaultGlobalsSteps l.args).foldl applyInitStep l.luaGlobals }

/-- Recognizes a registration step. -/
def InitStep.isRegister : InitStep → Bool
  | InitStep.registerStep _ _ => true
  | InitStep.freezeStep => false

/-- The per-chunk script environment: in sandbox mode every loaded chunk runs
with a fresh environment table for its own global writes (Luau
`luaL_sandboxthread`), so nothing a chunk stores there survives the run. -/
structure ScriptEnv where
  vars : List (String × LuaValue)
deriving DecidableEq, Repr

/-- The fresh environment a newly loaded chunk starts with. -/
def ScriptEnv.fresh : ScriptEnv := { vars := [] }

/-- A Luau runtime error as surfaced by mlua: the failure itself plus the
chunk name that `Chunk::set_name` attached for diagnostics (it appears in the
rendered message and traceback, nowhere else). -/
structure LuaError where
  kind : LuaErrorKind
  chunkName : String
deriving DecidableEq, Repr

/-- The embedded interpreter, abstracted: `exec` gives the semantics of
running a chunk source against a globals table in a script environment
(returning the outcome and the final environment), and the two formatting
helpers from `utils::formatting` render the diagnostic report. The claims
hold for every interpreter of this shape. -/
structure LuauInterp where
  exec : GlobalsTable → ScriptEnv → String → Except LuaErrorKind Unit × ScriptEnv
  printLabel : String → String
  prettyPrint : LuaError → List String

/-- A loaded chunk: its source plus its diagnostic name (mlua `Lua::load`
gives the chunk a default name until `set_name` overrides it). -/
structure ChunkSpec where
  source : String
  name : String
deriving DecidableEq, Repr

/-- The default diagnostic name mlua attaches to a chunk loaded without an
explicit name. -/
def mluaDefaultChunkName : String := "string"

/-- Embeds `Lua::load`: wraps a source string as a chunk with the default name. -/
def luaLoad (chunk : String) : ChunkSpec :=
  { source := chunk, name := mluaDefaultChunkName }

/-- Tests whether a chunk name survives the mlua name-to-CString conversion:
a name with an interior nul byte cannot be converted and is rejected. -/
def validChunkName (n : String) : Bool :=
  n.data.all (fun ch => ch != Char.ofNat 0)

/-- Embeds `Chunk::set_name`: replaces the diagnostic name of the chunk (mlua:
the name is used in error messages; it does not enter execution). The call is
fallible — the source propagates its error with the question-mark operator —
because a name containing an interior nul byte fails the C-string conversion
before anything executes. -/
def ChunkSpec.set_name (c : ChunkSpec) (n : String) : Except LuaError ChunkSpec :=
  if validChunkName n then Except.ok { c with name := n }
  else Except.error
    { kind := LuaErrorKind.conversionError "interior nul byte in chunk name",
      chunkName := c.name }

/-- Embeds `Chunk::exec_async`: runs the chunk source in a fresh script environment;
the outcome is determined by the source alone, and on failure the error
carries the chunk name purely as diagnostic metadata. -/
def ChunkSpec.exec_async (c : ChunkSpec) (I : LuauInterp) (g : GlobalsTable) :
    Except LuaError Unit × ScriptEnv :=
  match I.exec g ScriptEnv.fresh c.source with
  | (Except.ok _, env) => (Except.ok (), env)
  | (Except.error k, env) => (Except.error { kind := k, chunkName := c.name }, env)

/-- Embeds `Lune::handle_result`: `Ok` passes through; on `Err(e)` the function
prints a blank line, the ERROR label, another blank line and the
pretty-printed Luau error to stderr, then returns `Err(e.into())` carrying
the same failure. Stderr is modelled as an explicit list of lines. -/
def handle_result (I : LuauInterp) (result : Except LuaError Unit)
    (stderr : List String) : Except LuaError Unit × List String :=
  match result with
  | Except.ok _ => (Except.ok (), stderr)
  | Except.error e =>
    (Except.error e, stderr ++ ["", I.printLabel "ERROR", ""] ++ I.prettyPrint e)

/-- Embeds `Lune::run` with the post-run state made explicit: the chunk is loaded
under the default name and executed in a fresh script environment; the `Lune`
value itself (globals and args, behind `&self`) comes back unchanged, and the
chunk environment is dropped. -/
def Lune.run_stateful (l : Lune) (I : LuauInterp) (chunk : String)
    (stderr : List String) : (Except LuaError Unit × List String) × Lune :=
  (handle_result I ((luaLoad chunk).exec_async I l.luaGlobals).1 stderr, l)

/-- Embeds `Lune::run`: the observable part of `run_stateful` (result and stderr). -/
def Lune.run (l : Lune) (I : LuauInterp) (chunk : String)
    (stderr : List String) : Except LuaError Unit × List String :=
  (l.run_stateful I chunk stderr).1

/-- Embeds `Lune::run_with_name`: loads the chunk and attempts to give it the
caller-supplied diagnostic name; a `set_name` failure propagates out at once
(the question-mark in the source), before the chunk executes and without
passing through `handle_result`; otherwise the chunk runs exactly as in
`run`. -/
def Lune.run_with_name (l : Lune) (I : LuauInterp) (chunk name : String)
    (stderr : List String) : Except LuaError Unit × List String :=
  match (luaLoad chunk).set_name name with
  | Except.error e => (Except.error e, stderr)
  | Except.ok spec => handle_result I (spec.exec_async I l.luaGlobals).1 stderr

/-- A Luau value for the roblox datatype module: a callable installed by a
population hook of a datatype, or a nested table with its entries and readonly
flag. -/
inductive RloxValue where
  | func (name : String)
  | table (entries : List (String × RloxValue)) (readonly : Bool)

/-- A Luau table under construction in `lib-roblox`. -/
structure RloxTable where
  entries : List (String × RloxValue)
  readonly : Bool

/-- Error type of the fallible mlua table operations used by `lib-roblox`. -/
inductive RloxError where
  | readonlyWrite
  | other (message : String)
deriving DecidableEq, Repr

/-- Embeds `Lua::create_table`: a fresh, writable, empty table. -/
def luaCreateTable : RloxTable := { entries := [], readonly := false }

/-- Embeds `Table::set` of mlua (the non-raw write used by `module`): rejected on a
readonly table, otherwise stores the binding. -/
def RloxTable.set (t : RloxTable) (k : String) (v : RloxValue) :
    Except RloxError RloxTable :=
  if t.readonly then Except.error RloxError.readonlyWrite
  else Except.ok { t with entries := rawSetEntries t.entries k v }

/-- Converts a built table into a value storable in another table. -/
def RloxTable.toValue (t : RloxTable) : RloxValue :=
  RloxValue.table t.entries t.readonly

/-- Embeds `make_dt` of `lib-roblox`: creates a table, lets the datatype hook `f`
populate it, marks it readonly, and returns it. The hook is arbitrary (in the
source it is e.g. `Vector3::make_dt_table`). -/
def make_dt (f : RloxTable → Except RloxError RloxTable) :
    Except RloxError RloxTable := do
  let tab := luaCreateTable
  let tab ← f tab
  pure { tab with readonly := true }

/-- Embeds `module` of `lib-roblox`: builds the datatype list (currently only
`Vector3`, via `make_dt`), creates the exports table, copies each datatype
into it with `Table::set`, and returns the exports table without freezing
it. `vector3Hook` stands for `Vector3::make_dt_table`, whose body lives in
the `datatypes` module. -/
def module (vector3Hook : RloxTable → Except RloxError RloxTable) :
    Except RloxError RloxTable := do
  let v3 ← make_dt vector3Hook
  let datatypes := [("Vector3", v3)]
  let exports ← datatypes.foldlM
    (fun ex p => ex.set p.1 p.2.toValue) luaCreateTable
  pure exports

/-- Modelled from the spec: the task scheduler (the `TaskGlobal` capability
module and its `spawn`/`defer` primitives) is not among the sources under
review; this operational model follows §4.2 of the spec. A task body is a
sequence of primitive calls; `spawnP t` creates a context for `t` and runs it
immediately, synchronously, to its first suspension before the body
continues, while `deferP t` only appends `t` to the deferred queue of the
current pass. -/
inductive Prim where
  | spawnP (t : Nat)
  | deferP (t : Nat)
deriving DecidableEq, Repr

/-- Observable scheduling events: a context starting to execute, and a
context reaching its first suspension point. -/
inductive SchedEvent where
  | started (t : Nat)
  | suspended (t : Nat)
deriving DecidableEq, Repr

/-- Modelled from the spec: scheduler state during one resumption pass — the
queue of deferred tasks and the trace of events so far. -/
structure SchedState where
  deferQueue : List Nat
  trace : List SchedEvent
deriving DecidableEq, Repr

/-- Modelled from the spec: executes a task body. `spawnP t` makes the child
context run at once (it starts and reaches its first suspension before the
next primitive of the caller executes); `deferP t` queues `t` for after the
current pass without starting it. -/
def execBody : List Prim → SchedState → SchedState
  | [], s => s
  | Prim.spawnP t :: rest, s =>
    execBody rest { s with trace := s.trace ++ [SchedEvent.started t, SchedEvent.suspended t] }
  | Prim.deferP t :: rest, s =>
    execBody rest { s with deferQueue := s.deferQueue ++ [t] }

/-- Modelled from the spec: one scheduling pass for a root task — run the
root body to completion (spawned children included), then start the deferred
tasks in FIFO order. -/
def runSchedulerPass (body : List Prim) : List SchedEvent :=
  let s := execBody body { deferQueue := [], trace := [] }
  s.trace ++ s.deferQueue.map SchedEvent.started

/-- Modelled from the spec: the per-context state machine of §4.2, needed for
the cancellation primitive whose implementation (in the `TaskGlobal` module)
is not among the sources under review. -/
inductive CtxState where
  | created
  | running
  | suspended
  | runnable
  | completed
  | failed
  | cancelled
deriving DecidableEq, Repr

/-- A context state from which no further transitions happen. -/
def CtxState.isTerminal : CtxState → Bool
  | CtxState.completed => true
  | CtxState.failed => true
  | CtxState.cancelled => true
  | _ => false

/-- Error raised when a context attempts to cancel itself mid-execution. -/
inductive CancelError where
  | invalidCancellation
deriving DecidableEq, Repr

/-- Modelled from the spec: `cancel(handle)` — transitions a Runnable,
Suspended or Created context to Cancelled; on an already-terminal context it
is a no-op (the state is returned unchanged, no error); cancelling the
currently running context is rejected with `InvalidCancellation`. -/
def cancel : CtxState → Except CancelError CtxState
  | CtxState.running => Except.error CancelError.invalidCancellation
  | CtxState.created => Except.ok CtxState.cancelled
  | CtxState.suspended => Except.ok CtxState.cancelled
  | CtxState.runnable => Except.ok CtxState.cancelled
  | CtxState.completed => Except.ok CtxState.completed
  | CtxState.failed => Except.ok CtxState.failed
  | CtxState.cancelled => Except.ok CtxState.cancelled

/-- Boolean success test for `Except` results. -/
def exceptOk {ε α : Type} : Except ε α → Bool
  | Except.ok _ => true
  | Except.error _ => false

/-- A sample interpreter whose chunks always fail with a fixed runtime error;
used to instantiate theorems at concrete inputs. -/
def sampleFailInterp : LuauInterp :=
  { exec := fun _ env _ => (Except.error (LuaErrorKind.runtime "oops"), env),
    printLabel := fun s => s,
    prettyPrint := fun _ => ["diagnostic"] }

/-- A sample interpreter whose chunks always succeed; used to instantiate
theorems at concrete inputs. -/
def sampleOkInterp : LuauInterp :=
  { exec := fun _ env _ => (Except.ok (), env),
    printLabel := fun s => s,
    prettyPrint := fun _ => ["diagnostic"] }

/-- A diagnostic name consisting of a single nul byte: it fails the C-string
conversion inside `set_name`. -/
def nulName : String := String.mk [Char.ofNat 0]

/-- A sample datatype population hook that leaves the table as it received
it; used to instantiate theorems at concrete inputs. -/
def idHook : RloxTable → Except RloxError RloxTable := fun t => Except.ok t

theorem lookup_rawSet {α : Type} (es : List (String × α)) (k : String) (v : α)
    (q : String) :
    lookupEntry (rawSetEntries es k v) q = if k = q then some v else lookupEntry es q := by
  induction es with
  | nil => simp [rawSetEntries, lookupEntry]
  | cons hd tl ih =>
    obtain ⟨k0, v0⟩ := hd
    by_cases h0 : k0 = k
    · subst h0
      by_cases hq : k0 = q
      · subst hq
        simp [rawSetEntries, lookupEntry]
      · simp [rawSetEntries, lookupEntry, hq]
    · by_cases hq : k0 = q
      · subst hq
        have hk : ¬k = k0 := fun h => h0 h.symm
        simp [rawSetEntries, h0, lookupEntry, hk]
      · simp [rawSetEntries, h0, lookupEntry, hq, ih]

theorem wdg_readonly (l : Lune) : (l.with_default_globals).luaGlobals.readonly = true := rfl

theorem wdg_get (l : Lune) (k : String) :
    (l.with_default_globals).luaGlobals.get k =
      (if "task" = k then some LuaValue.taskGlobal
       else if "process" = k then some (LuaValue.processGlobal l.args)
       else if "net" = k then some LuaValue.netGlobal
       else if "fs" = k then some LuaValue.fsGlobal
       else if "console" = k then some LuaValue.consoleGlobal
       else l.luaGlobals.get k) := by
  simp [Lune.with_default_globals, defaultGlobalsSteps, List.foldl, applyInitStep,
    GlobalsTable.raw_set, GlobalsTable.set_readonly, GlobalsTable.get, lookup_rawSet]

theorem scriptSet_of_readonly (g : GlobalsTable) (h : g.readonly = true)
    (k : String) (v : LuaValue) :
    scriptSet g k v = (Except.error LuaErrorKind.sandboxViolation, g) := by
  simp [scriptSet, h]

theorem scriptSetMany_of_readonly (g : GlobalsTable) (h : g.readonly = true) :
    ∀ ops : List (String × LuaValue), scriptSetMany g ops = g := by
  intro ops
  induction ops with
  | nil => rfl
  | cons hd tl ih =>
    obtain ⟨k, v⟩ := hd
    simp [scriptSetMany, scriptSet_of_readonly g h k v, ih]

/-- C1: after `with_default_globals` returns, the globals table is frozen:
every script-level attempt to add or replace a top-level name fails with a
sandbox-violation error raised at the attempting call site and leaves the
globals table unchanged, so the set of top-level names never changes over any
sequence of subsequent attempts. -/
theorem sandbox_frozen_after_init (l : Lune) (k : String) (v : LuaValue)
    (ops : List (String × LuaValue)) :
    scriptSet (l.with_default_globals).luaGlobals k v =
      (Except.error LuaErrorKind.sandboxViolation, (l.with_default_globals).luaGlobals) ∧
    scriptSetMany (l.with_default_globals).luaGlobals ops =
      (l.with_default_globals).luaGlobals :=
  ⟨scriptSet_of_readonly _ (wdg_readonly l) k v,
   scriptSetMany_of_readonly _ (wdg_readonly l) ops⟩

/-- C6: the initialization sequence of `with_default_globals` consists of six
steps; the first five are capability registrations, the single freeze step is
the last one, so the namespace is frozen only after all registrations
complete and no freeze happens between registrations. -/
theorem init_registers_then_freezes (args : List String) :
    (defaultGlobalsSteps args).length = 6 ∧
    (defaultGlobalsSteps args).getLast? = some InitStep.freezeStep ∧
    ((defaultGlobalsSteps args).take 5).all InitStep.isRegister = true ∧
    ((defaultGlobalsSteps args).filter (fun s => !s.isRegister)).length = 1 :=
  ⟨rfl, rfl, rfl, rfl⟩

/-- C8: `with_default_globals` installs exactly the five top-level names
`console`, `fs`, `net`, `process` and `task` (every other name maps to what
it mapped to before), and marks the globals table read-only before
returning. -/
theorem with_default_globals_five_names (l : Lune) (k : String) :
    (l.with_default_globals).luaGlobals.readonly = true ∧
    (l.with_default_globals).luaGlobals.get k =
      (if "task" = k then some LuaValue.taskGlobal
       else if "process" = k then some (LuaValue.processGlobal l.args)
       else if "net" = k then some LuaValue.netGlobal
       else if "fs" = k then some LuaValue.fsGlobal
       else if "console" = k then some LuaValue.consoleGlobal
       else l.luaGlobals.get k) :=
  ⟨wdg_readonly l, wdg_get l k⟩

/-- C9: calling `with_args` after `with_default_globals` changes only the
`args` field of the `Lune` struct; the globals table is untouched, and in
particular the registered `process` global still holds the argument vector
cloned at registration time. -/
theorem with_args_preserves_process_global (l : Lune) (a : List String) :
    ((l.with_default_globals).with_args a).luaGlobals =
      (l.with_default_globals).luaGlobals ∧
    ((l.with_default_globals).with_args a).args = a ∧
    ((l.with_default_globals).with_args a).luaGlobals.get "process" =
      some (LuaValue.processGlobal l.args) := by
  refine ⟨rfl, rfl, ?_⟩
  have h := wdg_get l "process"
  simpa using h

/-- C2: `run` returns `Ok(())` exactly when the chunk executed without an
unhandled failure; when the chunk fails, `run` returns an `Err` carrying that
failure, and stderr has been extended with the formatted diagnostic report
(blank line, ERROR label, blank line, pretty-printed error). -/
theorem run_ok_iff_no_failure (I : LuauInterp) (l : Lune) (c : String)
    (stderr : List String) :
    ((l.run I c stderr).1 = Except.ok () ↔
      (I.exec l.luaGlobals ScriptEnv.fresh c).1 = Except.ok ()) ∧
    (∀ k, (I.exec l.luaGlobals ScriptEnv.fresh c).1 = Except.error k →
      (l.run I c stderr).1 =
        Except.error { kind := k, chunkName := mluaDefaultChunkName } ∧
      (l.run I c stderr).2 = stderr ++ ["", I.printLabel "ERROR", ""] ++
        I.prettyPrint { kind := k, chunkName := mluaDefaultChunkName }) := by
  rcases hre : I.exec l.luaGlobals ScriptEnv.fresh c with ⟨r, env⟩
  cases r with
  | ok u =>
    refine ⟨?_, ?_⟩
    · simp [Lune.run, Lune.run_stateful, ChunkSpec.exec_async, luaLoad,
        handle_result, hre]
    · intro k hk
      simp at hk
  | error k0 =>
    refine ⟨?_, ?_⟩
    · simp [Lune.run, Lune.run_stateful, ChunkSpec.exec_async, luaLoad,
        handle_result, hre]
    · intro k hk
      simp at hk
      subst hk
      simp [Lune.run, Lune.run_stateful, ChunkSpec.exec_async, luaLoad,
        handle_result, hre]

/-- C2 witness: the theorem instantiated at a concrete always-failing
interpreter and a concrete chunk. -/
theorem run_ok_iff_no_failure_witness :
    (Lune.new.run sampleFailInterp "boom()" []).1 =
      Except.error { kind := LuaErrorKind.runtime "oops",
                     chunkName := mluaDefaultChunkName } ∧
    (Lune.new.run sampleFailInterp "boom()" []).2 =
      [] ++ ["", sampleFailInterp.printLabel "ERROR", ""] ++
        sampleFailInterp.prettyPrint
          { kind := LuaErrorKind.runtime "oops", chunkName := mluaDefaultChunkName } :=
  (run_ok_iff_no_failure sampleFailInterp Lune.new "boom()" []).2
    (LuaErrorKind.runtime "oops") rfl

/-- C4: the runtime keeps no state across invocations — `run` hands back the
`Lune` value unchanged, so the observable outcome of a second `run` on the
same instance is the same as if the first `run` had never happened. -/
theorem run_stateless_across_invocations (I : LuauInterp) (l : Lune)
    (c1 c2 : String) (e1 e2 : List String) :
    (l.run_stateful I c1 e1).2 = l ∧
    ((l.run_stateful I c1 e1).2.run_stateful I c2 e2).1 =
      (l.run_stateful I c2 e2).1 :=
  ⟨rfl, rfl⟩

/-- C5 counterexample: the claim fails as stated for every name — with an
always-succeeding interpreter and the one-character nul name, `run` on the
same chunk succeeds while `run_with_name` fails (the name-conversion error of
`set_name` propagates before the chunk executes), so the name does not only
affect diagnostics. -/
theorem run_with_name_differs_on_nul_name :
    exceptOk (Lune.new.run sampleOkInterp "x" []).1 = true ∧
    exceptOk (Lune.new.run_with_name sampleOkInterp "x" nulName []).1 = false ∧
    (Lune.new.run_with_name sampleOkInterp "x" nulName []).1 =
      Except.error
        { kind := LuaErrorKind.conversionError "interior nul byte in chunk name",
          chunkName := mluaDefaultChunkName } := by
  refine ⟨rfl, ?_, ?_⟩ <;>
    simp [Lune.run_with_name, ChunkSpec.set_name, validChunkName, nulName, luaLoad,
      exceptOk]

/-- C5 (amended): for every chunk and every diagnostic name that survives the
C-string conversion of `set_name` (no interior nul byte), `run_with_name` has
the same execution semantics as `run` — the same success/failure outcome and
the same script environment effects — and the name shows up only in the
diagnostic metadata of a failure. -/
theorem run_with_name_same_semantics_valid (I : LuauInterp) (l : Lune)
    (c n : String) (stderr : List String) (hv : validChunkName n = true) :
    exceptOk (l.run I c stderr).1 = exceptOk (l.run_with_name I c n stderr).1 ∧
    (∀ spec, (luaLoad c).set_name n = Except.ok spec →
      ((luaLoad c).exec_async I l.luaGlobals).2 =
        (spec.exec_async I l.luaGlobals).2) ∧
    (∀ e1 e2, (l.run I c stderr).1 = Except.error e1 →
      (l.run_with_name I c n stderr).1 = Except.error e2 →
      e1.kind = e2.kind ∧ e2.chunkName = n ∧ e1.chunkName = mluaDefaultChunkName) := by
  have hsn : ({ source := c, name := mluaDefaultChunkName } : ChunkSpec).set_name n =
      Except.ok { source := c, name := n } := by
    simp [ChunkSpec.set_name, hv]
  rcases hre : I.exec l.luaGlobals ScriptEnv.fresh c with ⟨r, env⟩
  cases r with
  | ok u =>
    refine ⟨?_, ?_, ?_⟩
    · simp [Lune.run, Lune.run_with_name, Lune.run_stateful, ChunkSpec.exec_async,
        luaLoad, hsn, handle_result, hre, exceptOk]
    · intro spec hspec
      rw [show luaLoad c = ({ source := c, name := mluaDefaultChunkName } : ChunkSpec) from rfl,
        hsn] at hspec
      injection hspec with h
      subst h
      simp [ChunkSpec.exec_async, luaLoad, hre]
    · intro e1 e2 h1 h2
      rw [show (l.run I c stderr).1 =
          (handle_result I ((luaLoad c).exec_async I l.luaGlobals).1 stderr).1 from rfl] at h1
      simp [ChunkSpec.exec_async, luaLoad, handle_result, hre] at h1
  | error k0 =>
    refine ⟨?_, ?_, ?_⟩
    · simp [Lune.run, Lune.run_with_name, Lune.run_stateful, ChunkSpec.exec_async,
        luaLoad, hsn, handle_result, hre, exceptOk]
    · intro spec hspec
      rw [show luaLoad c = ({ source := c, name := mluaDefaultChunkName } : ChunkSpec) from rfl,
        hsn] at hspec
      injection hspec with h
      subst h
      simp [ChunkSpec.exec_async, luaLoad, hre]
    · intro e1 e2 h1 h2
      simp [Lune.run, Lune.run_with_name, Lune.run_stateful, ChunkSpec.exec_async,
        luaLoad, hsn, handle_result, hre] at h1 h2
      subst h1
      subst h2
      exact ⟨rfl, rfl, rfl⟩

/-- C5 witness: the amended theorem instantiated at a concrete always-failing
interpreter, a concrete chunk and a concrete valid diagnostic name. -/
theorem run_with_name_same_semantics_valid_witness :
    (LuaErrorKind.runtime "oops" : LuaErrorKind) =
      ({ kind := LuaErrorKind.runtime "oops", chunkName := "main" } : LuaError).kind ∧
    ({ kind := LuaErrorKind.runtime "oops", chunkName := "main" } : LuaError).chunkName = "main" ∧
    ({ kind := LuaErrorKind.runtime "oops",
       chunkName := mluaDefaultChunkName } : LuaError).chunkName = mluaDefaultChunkName :=
  (run_with_name_same_semantics_valid sampleFailInterp Lune.new "boom()" "main" []
      (by decide)).2.2
    { kind := LuaErrorKind.runtime "oops", chunkName := mluaDefaultChunkName }
    { kind := LuaErrorKind.runtime "oops", chunkName := "main" } rfl rfl

theorem execBody_append (xs ys : List Prim) (s : SchedState) :
    execBody (xs ++ ys) s = execBody ys (execBody xs s) := by
  induction xs generalizing s with
  | nil => rfl
  | cons p rest ih =>
    cases p with
    | spawnP t => simp [execBody, ih]
    | deferP t => simp [execBody, ih]

/-- C3: a spawned context runs immediately and synchronously to its first
suspension before control returns to the caller — right after any prefix of
the body of the caller followed by `spawn b`, the trace already ends with b
starting and suspending, before any later primitive of the caller runs; in
particular for a root body `defer A; spawn B` the whole pass trace shows B
started and suspended before A starts. -/
theorem spawn_immediate_before_defer :
    (∀ (s : SchedState) (pre : List Prim) (b : Nat),
      (execBody (pre ++ [Prim.spawnP b]) s).trace =
        (execBody pre s).trace ++ [SchedEvent.started b, SchedEvent.suspended b]) ∧
    (∀ a b : Nat,
      runSchedulerPass [Prim.deferP a, Prim.spawnP b] =
        [SchedEvent.started b, SchedEvent.suspended b, SchedEvent.started a]) := by
  refine ⟨?_, ?_⟩
  · intro s pre b
    rw [execBody_append]
    rfl
  · intro a b
    rfl

/-- C7: `cancel` is idempotent — cancelling a handle a second time has the
same observable outcome as cancelling it once — and cancelling a context that
is already terminal (completed, failed or cancelled) is a no-op that returns
the state unchanged rather than an error. -/
theorem cancel_idempotent_terminal_noop :
    (∀ s : CtxState, (cancel s).bind cancel = cancel s) ∧
    (∀ s : CtxState, s.isTerminal = true → cancel s = Except.ok s) := by
  refine ⟨?_, ?_⟩
  · intro s
    cases s <;> rfl
  · intro s h
    cases s <;> simp_all [CtxState.isTerminal, cancel]

/-- C7 witness: cancelling a completed context is a no-op. -/
theorem cancel_idempotent_terminal_noop_witness :
    CtxState.completed.isTerminal = true ∧
    cancel CtxState.completed = Except.ok CtxState.completed :=
  ⟨rfl, cancel_idempotent_terminal_noop.2 CtxState.completed rfl⟩

/-- C10: every datatype table `make_dt` produces is readonly when returned,
whatever the population hook did, while the exports table `module` returns is
left writable; the `Vector3` entry stored inside it is a readonly table. -/
theorem make_dt_readonly_exports_writable :
    (∀ f t, make_dt f = Except.ok t → t.readonly = true) ∧
    (∀ f ex, module f = Except.ok ex →
      ex.readonly = false ∧
      ∀ es ro, lookupEntry ex.entries "Vector3" = some (RloxValue.table es ro) →
        ro = true) := by
  constructor
  · intro f t h
    cases hf : f luaCreateTable with
    | error e =>
      rw [make_dt, hf] at h
      exact absurd h (by simp [Bind.bind, Except.bind])
    | ok tab =>
      rw [make_dt, hf] at h
      simp [Bind.bind, Except.bind, Pure.pure, Except.pure] at h
      rw [h.symm]
  · intro f ex h
    cases hf : f luaCreateTable with
    | error e =>
      rw [module, make_dt, hf] at h
      exact absurd h (by simp [Bind.bind, Except.bind])
    | ok tab =>
      rw [module, make_dt, hf] at h
      simp [Bind.bind, Except.bind, Pure.pure, Except.pure, List.foldlM,
        RloxTable.set, luaCreateTable, RloxTable.toValue, rawSetEntries] at h
      rw [h.symm]
      refine ⟨rfl, ?_⟩
      intro es ro hlook
      simp [lookupEntry] at hlook
      exact hlook.2

/-- C10 witness: the theorem instantiated at the identity population hook. -/
theorem make_dt_readonly_exports_writable_witness :
    ({ entries := [], readonly := true } : RloxTable).readonly = true ∧
    (({ entries := [("Vector3", RloxValue.table [] true)],
        readonly := false } : RloxTable).readonly = false ∧
      ∀ es ro,
        lookupEntry
          ({ entries := [("Vector3", RloxValue.table [] true)],
             readonly := false } : RloxTable).entries "Vector3" =
          some (RloxValue.table es ro) → ro = true) :=
  ⟨make_dt_readonly_exports_writable.1 idHook { entries := [], readonly := true } rfl,
   make_dt_readonly_exports_writable.2 idHook
     { entries := [("Vector3", RloxValue.table [] true)], readonly := false } rfl⟩
